import Mathlib

/-!
Shallow embedding of the live-graph core of `src/101.py` (class `StockApp`).

The state the live tab mutates is set up in `build_live_ui` (lines 48-61):
the selected symbol `self.sel`, the zoom factor `self.zoom_factor` and the
single price buffer `self.price_buf`.  The tick `update_live_graph`
(lines 132-184) fetches a quote for the selected symbol, appends
`(now, price)` to the buffer, truncates it to the last 300 entries, and
derives the trend flag and the display color from the buffer; every
exception raised inside the tick is caught by the `except` clause on
line 183, so a failing tick leaves the state unchanged and is never fatal.
Prices are modelled as rationals, timestamps as an abstract tick counter.
-/

/-- One observation appended to the live buffer: the pair
`(datetime.now(), price)` built on line 139 of `src/101.py`. -/
structure Obs where
  time : Nat
  price : ℚ
deriving DecidableEq

/-- Mutable fields of the live tab, assigned in `build_live_ui`
(lines 50, 55, 56 of `src/101.py`): `self.sel`, `self.zoom_factor` and the
single shared buffer `self.price_buf`. -/
structure LiveState where
  sel : String
  zoom_factor : ℚ
  price_buf : List Obs
deriving DecidableEq

/-- Initial live-tab state from `build_live_ui`: `self.sel` starts at
`STOCKS[0] = "RELIANCE"` (line 50), `self.zoom_factor = 1.0` (line 55),
`self.price_buf = []` (line 56). -/
def initLiveState : LiveState :=
  { sel := "RELIANCE", zoom_factor := 1, price_buf := [] }

/-- Method `zoom` (lines 125-126): `self.zoom_factor *= factor`. -/
def zoom (st : LiveState) (factor : ℚ) : LiveState :=
  { st with zoom_factor := st.zoom_factor * factor }

/-- The Zoom In button (line 52) runs `self.zoom(0.8)`. -/
def zoomIn (st : LiveState) : LiveState := zoom st 0.8

/-- The Zoom Out button (line 53) runs `self.zoom(1.25)`. -/
def zoomOut (st : LiveState) : LiveState := zoom st 1.25

/-- Picking a symbol in the combobox bound to `self.sel` (lines 50-51)
writes only the selected symbol; no other field of the app is touched and
in particular `self.price_buf` is not cleared. -/
def selectInstrument (st : LiveState) (s : String) : LiveState :=
  { st with sel := s }

/-- Python slice `l[-300:]` used on line 140: the most recent `n` entries
of `l` (all of them when `l` is shorter than `n`). -/
def lastN {α : Type} (n : Nat) (l : List α) : List α :=
  l.drop (l.length - n)

/-- Lines 139-140: `self.price_buf.append((now, price))` followed by
`self.price_buf = self.price_buf[-300:]`. -/
def appendObs (buf : List Obs) (o : Obs) : List Obs :=
  lastN 300 (buf ++ [o])

/-- The two fields of `q["priceInfo"]` that `update_live_graph` reads
(lines 136-137); a missing key raises `KeyError`, modelled by `none`. -/
structure Quote where
  lastPrice : Option ℚ
  previousClose : Option ℚ
deriving DecidableEq

/-- Outcome of one `nsefetch` call (line 135): a payload, or an exception
raised by the call itself. -/
inductive FetchResult where
  | ok : Quote → FetchResult
  | err : FetchResult
deriving DecidableEq

/-- Lines 142-144 of `update_live_graph`, on the price column `p` of the
buffer: `up = p[-1] >= p[0]` and `color = "#00ff5f" if up else "#ff4c4c"`.
On an empty buffer `t, p = zip(*self.price_buf)` raises, modelled by
`none`; the code only reaches these lines after an append, so the buffer
is never empty here. -/
def deriveSignals (p : List ℚ) : Option (Bool × String) :=
  match p with
  | [] => none
  | a :: rest =>
    let up : Bool := decide (rest.getLastD a ≥ a)
    some (up, if up then "#00ff5f" else "#ff4c4c")

/-- Lines 168-170 of `update_live_graph`, on the price column `p`:
`rng = max(p) - min(p)`, then `if rng == 0: rng = p[-1] * 0.01`, then
`pad = rng * 0.3 * self.zoom_factor`.  `none` models the empty buffer, on
which `max(p)` would raise. -/
def padFor (p : List ℚ) (z : ℚ) : Option ℚ :=
  match p with
  | [] => none
  | a :: rest =>
    let mx := rest.foldl max a
    let mn := rest.foldl min a
    let rng0 := mx - mn
    let rng := if rng0 = 0 then rest.getLastD a * 0.01 else rng0
    some (rng * 0.3 * z)

/-- State effect of one tick of `update_live_graph` (lines 132-184):
read `s = self.sel.get()`, fetch the quote for `s`, read
`q["priceInfo"]["lastPrice"]` and then `q["priceInfo"]["previousClose"]`
(each raising `KeyError` when missing), and only then append
`(now, price)` to `self.price_buf` and truncate to the last 300 entries.
Any exception up to that point is caught by the `except` on line 183
before the append happens, so the state is returned unchanged; the
remaining lines (142-182) assign no field of the app, only the matplotlib
axes. -/
def update_live_graph (fetch : String → FetchResult) (now : Nat)
    (st : LiveState) : LiveState :=
  match fetch st.sel with
  | .err => st
  | .ok q =>
    match q.lastPrice with
    | none => st
    | some price =>
      match q.previousClose with
      | none => st
      | some _ => { st with price_buf := appendObs st.price_buf ⟨now, price⟩ }

/-- The loop `update_live_graph_loop` (lines 128-130): run one tick, then
`self.root.after(REFRESH_MS, ...)` schedules the next tick
unconditionally, because the tick itself catches its exceptions.  A finite
schedule is a list of (fetch outcome, timestamp) pairs, consumed in
order. -/
def update_live_graph_loop (ticks : List (FetchResult × Nat))
    (st : LiveState) : LiveState :=
  ticks.foldl (fun s tk => update_live_graph (fun _ => tk.1) tk.2 s) st

/-- The window the app holds for an instrument.  The chart drawn for the
selected instrument always reads the single `self.price_buf`
(lines 142, 150-153); there is no per-instrument storage, so the window
associated with any instrument is this one shared buffer. -/
def windowFor (st : LiveState) (_instrument : String) : List Obs :=
  st.price_buf

/-- The signal-derivation part of a tick (lines 142-144) as a state
transformer: it computes the signals from the prices in the buffer and
writes no field of the app (the only assignments on lines 142-182 target
the matplotlib axes, not `self.sel`, `self.zoom_factor` or
`self.price_buf`). -/
def render_step (st : LiveState) : Option (Bool × String) × LiveState :=
  (deriveSignals (st.price_buf.map Obs.price), st)

/-- Modelled from the spec (the source computes no crash flag): the crash
signal the spec describes, true iff the latest price is strictly below
`0.97` times the maximum price in the window. -/
def crash_spec (p : List ℚ) : Option Bool :=
  match p with
  | [] => none
  | a :: rest => some (decide (rest.getLastD a < 0.97 * rest.foldl max a))

/-- Formalisation of claim C1 as stated: appending an observation while
some other instrument is selected never changes a given instrument's
window, and switching the selection does not clear the switched-to
instrument's window. -/
def claimC1 : Prop :=
  (∀ (st : LiveState) (B : String) (f : String → FetchResult) (now : Nat),
      st.sel ≠ B →
      windowFor (update_live_graph f now st) B = windowFor st B) ∧
  ∀ (st : LiveState) (i : String),
      windowFor (selectInstrument st i) i = windowFor st i

/-- Formalisation of claim C4 as stated: some component of the derived
signal snapshot is the crash flag, i.e. a function of the derived output
recovers, for every non-empty window, the value `latest < 0.97 * peak`. -/
def claimC4 : Prop :=
  ∃ f : Bool × String → Bool,
    ∀ (p : List ℚ) (out : Bool × String) (b : Bool),
      deriveSignals p = some out → crash_spec p = some b → f out = b

/-- Formalisation of claim C5 as stated: the padding is
`(max - min) * 0.3 * zoomFactor`, except that on a zero-range window the
padding itself is `latestPrice * 0.01`. -/
def claimC5 : Prop :=
  ∀ (a : ℚ) (rest : List ℚ) (z : ℚ),
    padFor (a :: rest) z =
      some (if rest.foldl max a - rest.foldl min a = 0
        then rest.getLastD a * 0.01
        else (rest.foldl max a - rest.foldl min a) * 0.3 * z)

/-- Formalisation of claim C6 as stated: there is an alert color, distinct
from the up and down colors, and the derived color is the alert color
exactly on windows whose crash flag is set, the trend-based color
otherwise. -/
def claimC6 : Prop :=
  ∃ alert upColor downColor : String,
    alert ≠ upColor ∧ alert ≠ downColor ∧
    ∀ (p : List ℚ) (out : Bool × String) (b : Bool),
      deriveSignals p = some out → crash_spec p = some b →
      out.2 = if b then alert else if out.1 then upColor else downColor

theorem lastN_length_le {α : Type} (n : Nat) (l : List α) :
    (lastN n l).length ≤ n := by
  unfold lastN
  rw [List.length_drop]
  omega

theorem lastN_append_one {α : Type} (l : List α) (o : α) :
    lastN 300 (lastN 300 l ++ [o]) = lastN 300 (l ++ [o]) := by
  rcases le_or_lt l.length 300 with h | h
  · have h0 : l.length - 300 = 0 := Nat.sub_eq_zero_of_le h
    simp [lastN, h0]
  · have hA : (lastN 300 l).length = 300 := by
      rw [lastN, List.length_drop]; omega
    have hL1 : (lastN 300 l ++ [o]).length - 300 = 1 := by
      simp [List.length_append, hA]
    have hR : (l ++ [o]).length - 300 = (l.length - 300) + 1 := by
      rw [List.length_append]; simp; omega
    calc lastN 300 (lastN 300 l ++ [o])
        = (lastN 300 l ++ [o]).drop 1 := by rw [lastN, hL1]
      _ = (lastN 300 l).drop 1 ++ [o] := by
          rw [List.drop_append_of_le_length (by omega)]
      _ = l.drop ((l.length - 300) + 1) ++ [o] := by
          rw [lastN, List.drop_drop, Nat.add_comm]
      _ = (l ++ [o]).drop ((l.length - 300) + 1) := by
          rw [List.drop_append_of_le_length (by omega)]
      _ = lastN 300 (l ++ [o]) := by rw [lastN, hR]

theorem foldl_appendObs (l buf : List Obs) :
    List.foldl appendObs (lastN 300 buf) l = lastN 300 (buf ++ l) := by
  induction l generalizing buf with
  | nil => simp
  | cons o l ih =>
    have step : appendObs (lastN 300 buf) o = lastN 300 (buf ++ [o]) :=
      lastN_append_one buf o
    rw [List.foldl_cons, step, ih (buf ++ [o])]
    simp

/-- Claim C2: after every append the buffer holds at most 300 samples; a
buffer grown from empty by a sequence of appends holds exactly the most
recent 300 (or fewer) observations in insertion order; and an append to a
full buffer drops exactly the oldest sample, makes the new sample the
newest, and keeps the remaining 299 in relative order. -/
theorem window_bounded_and_fifo (buf : List Obs) (o : Obs) (l : List Obs) :
    (appendObs buf o).length ≤ 300 ∧
    List.foldl appendObs [] l = lastN 300 l ∧
    (buf.length = 300 → appendObs buf o = buf.tail ++ [o]) := by
  refine ⟨lastN_length_le 300 (buf ++ [o]), ?_, ?_⟩
  · have h := foldl_appendObs l []
    simpa [lastN] using h
  · intro hfull
    have h1 : (buf ++ [o]).length - 300 = 1 := by
      simp [List.length_append, hfull]
    rw [appendObs, lastN, h1, List.drop_append_of_le_length (by omega),
      List.drop_one]

/-- Claim C3: for every non-empty window the derived trend flag is true
iff the latest price is at least the oldest price, and a single-sample
window always has the flag set. -/
theorem trendUp_iff_last_ge_first (a : ℚ) (rest : List ℚ) (up : Bool)
    (color : String) (h : deriveSignals (a :: rest) = some (up, color)) :
    (up = true ↔ rest.getLastD a ≥ a) ∧ (rest = [] → up = true) := by
  simp only [deriveSignals, Option.some.injEq, Prod.mk.injEq] at h
  obtain ⟨hup, -⟩ := h
  constructor
  · rw [← hup]
    exact decide_eq_true_iff
  · intro hnil
    subst hnil
    rw [← hup]
    simp

theorem trendUp_iff_last_ge_first_witness :
    ((true : Bool) = true ↔ ([] : List ℚ).getLastD 5 ≥ 5) ∧
    (([] : List ℚ) = [] → (true : Bool) = true) :=
  trendUp_iff_last_ge_first 5 [] true "#00ff5f" (by decide)

/-- Claim C4 is false of the code: no function of the derived signal pair
recovers the spec's crash flag, because the windows `[100, 50]` and
`[100, 99]` produce the same derived pair while their crash conditions
differ. -/
theorem no_crash_signal_derived : ¬ claimC4 := by
  rintro ⟨f, h⟩
  have h1 : f (false, "#ff4c4c") = true :=
    h [100, 50] (false, "#ff4c4c") true (by decide) (by norm_num [crash_spec])
  have h2 : f (false, "#ff4c4c") = false :=
    h [100, 99] (false, "#ff4c4c") false (by decide) (by norm_num [crash_spec])
  exact absurd (h1.symm.trans h2) (by decide)

/-- Claim C4 amended: the code derives no crash signal.  The derived pair
is a function of the oldest and latest prices alone, so two windows with
the same endpoints but different peaks (hence different spec-crash
conditions) get identical signals; the spec-side formula itself does meet
the claimed boundary, `crash_spec` being false at latest `97` under peak
`100`. -/
theorem signals_depend_only_on_first_and_last (a : ℚ)
    (rest1 rest2 : List ℚ) (h : rest1.getLastD a = rest2.getLastD a) :
    deriveSignals (a :: rest1) = deriveSignals (a :: rest2) ∧
    crash_spec [100, 97] = some false := by
  constructor
  · simp only [deriveSignals, h]
  · norm_num [crash_spec]

theorem signals_depend_only_on_first_and_last_witness :
    deriveSignals (50 :: [100, 60]) = deriveSignals (50 :: [60]) ∧
    crash_spec [100, 97] = some false :=
  signals_depend_only_on_first_and_last 50 [100, 60] [60] (by decide)

/-- Claim C5 is false of the code: on the flat single-sample window
`[100]` with zoom factor `1` the code computes
`pad = (100 * 0.01) * 0.3 * 1 = 0.3`, not `latestPrice * 0.01 = 1` —
the zero-range fallback replaces the range, not the padding. -/
theorem flat_window_pad_not_latest_times_centi : ¬ claimC5 := by
  intro h
  have hv := h 100 [] 1
  norm_num [padFor] at hv

/-- Claim C5 amended: the padding is `(max - min) * 0.3 * zoomFactor`,
and on a zero-range window the range falls back to `latestPrice * 0.01`,
making the padding `latestPrice * 0.01 * 0.3 * zoomFactor`. -/
theorem pad_formula_with_flat_fallback (a : ℚ) (rest : List ℚ) (z : ℚ) :
    padFor (a :: rest) z =
      some (if rest.foldl max a - rest.foldl min a = 0
        then rest.getLastD a * 0.01 * 0.3 * z
        else (rest.foldl max a - rest.foldl min a) * 0.3 * z) := by
  simp only [padFor]
  rw [ite_mul, ite_mul]

/-- Claim C6 is false of the code: no three-way alert/up/down color scheme
keyed on the crash flag matches the code, because the windows
`[50, 100, 60]` (crash condition true) and `[50, 60]` (crash condition
false) both render the up color `"#00ff5f"`, which would force the alert
color to equal the up color. -/
theorem no_alert_color_override : ¬ claimC6 := by
  rintro ⟨alert, upColor, downColor, hne1, -, h⟩
  have h1 : "#00ff5f" = alert :=
    h [50, 100, 60] (true, "#00ff5f") true (by decide) (by norm_num [crash_spec])
  have h2 : "#00ff5f" = upColor :=
    h [50, 60] (true, "#00ff5f") false (by decide) (by norm_num [crash_spec])
  exact hne1 (h1.symm.trans h2)

/-- Claim C6 amended: the display color is determined by the trend flag
alone — `"#00ff5f"` when the trend is up, `"#ff4c4c"` otherwise; no crash
override exists in the code. -/
theorem color_determined_by_trend_alone (p : List ℚ) (up : Bool)
    (c : String) (h : deriveSignals p = some (up, c)) :
    c = if up then "#00ff5f" else "#ff4c4c" := by
  cases p with
  | nil => simp [deriveSignals] at h
  | cons a rest =>
    simp only [deriveSignals, Option.some.injEq, Prod.mk.injEq] at h
    obtain ⟨hup, hc⟩ := h
    rw [← hc, hup]

theorem color_determined_by_trend_alone_witness :
    "#ff4c4c" = if (false : Bool) then "#00ff5f" else "#ff4c4c" :=
  color_determined_by_trend_alone [7, 3] false "#ff4c4c" (by decide)

/-- Claim C7: a tick whose fetch raises, or whose payload lacks
`lastPrice` or `previousClose`, leaves the state (in particular the
buffer) exactly unchanged — the exception fires before the append and is
caught, so it is never fatal — and the loop still runs the remaining
scheduled ticks from that unchanged state. -/
theorem failed_fetch_leaves_window_and_schedule (f : String → FetchResult)
    (now : Nat) (st : LiveState) (rest : List (FetchResult × Nat))
    (r : FetchResult) (hf : f st.sel = r)
    (h : r = .err ∨
      ∃ q, r = .ok q ∧ (q.lastPrice = none ∨ q.previousClose = none)) :
    update_live_graph f now st = st ∧
    update_live_graph_loop ((r, now) :: rest) st =
      update_live_graph_loop rest st := by
  have key : ∀ (g : String → FetchResult), g st.sel = r →
      update_live_graph g now st = st := by
    intro g hg
    rcases h with herr | ⟨q, hok, hmiss⟩
    · simp [update_live_graph, hg, herr]
    · rcases hmiss with hlp | hpc
      · simp [update_live_graph, hg, hok, hlp]
      · cases hq : q.lastPrice with
        | none => simp [update_live_graph, hg, hok, hq]
        | some price => simp [update_live_graph, hg, hok, hq, hpc]
  refine ⟨key f hf, ?_⟩
  simp only [update_live_graph_loop, List.foldl_cons]
  rw [key (fun _ => r) rfl]

theorem failed_fetch_leaves_window_and_schedule_witness :
    update_live_graph (fun _ => FetchResult.err) 0 initLiveState =
      initLiveState ∧
    update_live_graph_loop [(FetchResult.err, 0)] initLiveState =
      update_live_graph_loop [] initLiveState :=
  failed_fetch_leaves_window_and_schedule (fun _ => FetchResult.err) 0
    initLiveState [] FetchResult.err rfl (Or.inl rfl)

/-- Claim C8: from zoom factor `1`, Zoom In (multiply by `0.8`) gives
`0.8`, and a subsequent Zoom Out (multiply by `1.25`) gives exactly `1`
again — the round trip returns to the starting factor. -/
theorem zoom_round_trip (st : LiveState) (h : st.zoom_factor = 1) :
    (zoomIn st).zoom_factor = 0.8 ∧
    (zoomOut (zoomIn st)).zoom_factor = 1 := by
  simp only [zoomIn, zoomOut, zoom, h]
  norm_num

theorem zoom_round_trip_witness :
    (zoomIn initLiveState).zoom_factor = 0.8 ∧
    (zoomOut (zoomIn initLiveState)).zoom_factor = 1 :=
  zoom_round_trip initLiveState rfl

/-- Claim C9: signal derivation is pure and deterministic — running the
render step a second time on the state it returned yields the same
signals, the render step writes no field of the state, and the signals
are a function of the buffer contents alone (two states sharing a buffer
get identical signals whatever their zoom factor or selection). -/
theorem signal_derivation_pure (st st2 : LiveState)
    (h : st.price_buf = st2.price_buf) :
    (render_step (render_step st).2).1 = (render_step st).1 ∧
    (render_step st).2 = st ∧
    (render_step st).1 = (render_step st2).1 := by
  refine ⟨rfl, rfl, ?_⟩
  simp [render_step, h]

theorem signal_derivation_pure_witness :
    (render_step (render_step initLiveState).2).1 =
      (render_step initLiveState).1 ∧
    (render_step initLiveState).2 = initLiveState ∧
    (render_step initLiveState).1 =
      (render_step { initLiveState with zoom_factor := 2 }).1 :=
  signal_derivation_pure initLiveState
    { initLiveState with zoom_factor := 2 } rfl

/-- Claim C1 is false of the code: starting from the initial state (where
`"RELIANCE"` is selected) a successful tick appends to the one shared
buffer, so the window held for the distinct instrument `"TCS"` changes
from `[]` to a one-element list. -/
theorem append_mutates_other_instrument_window : ¬ claimC1 := by
  rintro ⟨hframe, -⟩
  exact absurd
    (hframe initLiveState "TCS"
      (fun _ => FetchResult.ok ⟨some 100, some 95⟩) 0 (by decide))
    (by decide)

/-- Claim C1 amended: there is a single window shared by all instruments.
Switching the selection changes only `self.sel` — it clears nothing and
leaves the buffer and zoom factor intact — and a successful append while
any instrument is selected updates the one shared buffer that is also
every other instrument's window, the result being independent of which
instrument is selected or asked about. -/
theorem single_shared_window_on_switch_and_append (st : LiveState)
    (i : String) (now : Nat) (price pc : ℚ) :
    (selectInstrument st i).price_buf = st.price_buf ∧
    (selectInstrument st i).zoom_factor = st.zoom_factor ∧
    ∀ B : String,
      windowFor
        (update_live_graph (fun _ => FetchResult.ok ⟨some price, some pc⟩)
          now st) B = appendObs st.price_buf ⟨now, price⟩ := by
  refine ⟨rfl, rfl, fun B => ?_⟩
  simp [update_live_graph, windowFor]

/-- Claim C10: a zoom command multiplies the factor by its step and
changes nothing else, and any sequence of zoom commands leaves the buffer
(contents and length) and the selected instrument unchanged while
multiplying the factor by the product of the steps. -/
theorem zoom_changes_only_factor (st : LiveState) (fs : List ℚ) :
    (List.foldl zoom st fs).price_buf = st.price_buf ∧
    (List.foldl zoom st fs).sel = st.sel ∧
    (List.foldl zoom st fs).zoom_factor = st.zoom_factor * fs.prod ∧
    ∀ f : ℚ, zoom st f = { st with zoom_factor := st.zoom_factor * f } := by
  refine ⟨?_, ?_, ?_, fun f => rfl⟩
  all_goals
    induction fs generalizing st with
    | nil => simp [zoom]
    | cons f fs ih => simp [zoom, ih, mul_assoc]
